import Mathlib

/-!
Shallow embedding of src/integer_interpreter.py: a tree-walking evaluator
for a small expression language with lexical scoping, mutable variable
cells, conditionals, sequencing, and first-class closures.

Python dictionaries (environment frames) and Variable objects (mutable
cells) are heap-allocated in the source, so the embedding carries an
explicit heap in a State: a list of frames (dict heap, a frame handle is
an index) and a list of cell contents (cell heap, a cell address is an
index). Frame copies (env.copy()) append a new frame; Variable creation
appends a new cell; assignment mutates a cell in place. Evaluation is
fuel-bounded because the language can express non-terminating recursion
through closures and assignment.
-/

namespace Interp

/-- Builtin operations of the global environment (the Python lambdas
bound to add, sub, mul, div, mod, eq, zero?, print). -/
inductive BuiltinOp where
  | add
  | sub
  | mul
  | div
  | mod
  | eq
  | zeroP
  | print
deriving DecidableEq, Repr

/-- Expression-tree nodes recognized by evaluate_expression. A bare JSON
boolean is accepted by the isinstance(expression, int) branch in Python
(bool is an int subclass) and returned unchanged, hence the bool
constructor. Let and Assignment carry the bound identifier directly, as
the source reads it from the Identifier sub-node. -/
inductive Expr where
  | int (n : Int)
  | bool (b : Bool)
  | str (t : String)
  | ident (n : String)
  | app (fn : Expr) (args : List Expr)
  | cond (clauses : List (Expr × Expr))
  | block (es : List Expr)
  | letE (n : String) (value : Expr) (body : Expr)
  | assign (n : String) (value : Expr)
  | lambda (params : List String) (body : List Expr)
deriving Repr

/-- Runtime values. Value.none is Python None (initial block result and
print's return value). Value.error is a Python ValueError OBJECT returned
as an ordinary value, which is what the div and mod builtins produce on a
zero divisor in the source. Closures hold parameter names, body
expressions, and the handle of the captured frame. -/
inductive Value where
  | int (n : Int)
  | bool (b : Bool)
  | str (t : String)
  | none
  | builtin (op : BuiltinOp)
  | closure (params : List String) (body : List Expr) (envH : Nat)
  | error (msg : String)
deriving Repr

/-- What an environment dict maps a name to: a mutable Variable cell
(by heap address) or a plain value (the builtin lambdas and the
true and false constants in the global environment). -/
inductive Binding where
  | cell (addr : Nat)
  | val (v : Value)
deriving Repr

/-- An environment frame: a Python dict from names to bindings.
Lookup takes the newest pair, so setKey below models dict update. -/
def Frame := List (String × Binding)

/-- First-match association lookup, modelling Python dict access. -/
def frameLookup : Frame → String → Option Binding
  | [], _ => Option.none
  | (k, b) :: rest, n => if k = n then some b else frameLookup rest n

/-- Dict update on a (copied) frame: the new pair shadows any older one. -/
def setKey (f : Frame) (n : String) (b : Binding) : Frame :=
  (n, b) :: f

/-- The interpreter state: the dict heap (frames), the cell heap
(Variable contents), and the text written by print. -/
structure State where
  frames : List Frame
  cells : List Value
  output : List String

/-- Read a frame by handle. -/
def getFrame (s : State) (h : Nat) : Frame :=
  s.frames.getD h []

/-- Allocate a new frame (env.copy() and dict literals), returning its
handle. -/
def pushFrame (s : State) (f : Frame) : Nat × State :=
  (s.frames.length, { s with frames := s.frames ++ [f] })

/-- Read a Variable cell. -/
def getCell (s : State) (a : Nat) : Value :=
  s.cells.getD a .none

/-- Mutate a Variable cell in place (variable.value = var_value). -/
def setCell (s : State) (a : Nat) (v : Value) : State :=
  { s with cells := s.cells.set a v }

/-- Allocate a fresh Variable cell, returning its address. -/
def allocCell (s : State) (v : Value) : Nat × State :=
  (s.cells.length, { s with cells := s.cells ++ [v] })

/-- Python callable(): only the builtin lambdas and closures. -/
def pyCallable : Value → Bool
  | .builtin _ => true
  | .closure _ _ _ => true
  | _ => false

/-- Numeric view of a value: Python arithmetic accepts ints and bools
(True acts as 1, False as 0). -/
def asNum : Value → Option Int
  | .int n => some n
  | .bool b => some (if b then 1 else 0)
  | _ => Option.none

/-- Errors raised by the interpreter (Python exceptions). pyTypeError
stands for the TypeError Python raises when a builtin lambda is applied
to operands of unsupported type or to the wrong number of arguments.
outOfFuel is the fuel bound of the embedding, not a source behavior. -/
inductive Err where
  | unboundIdentifier (n : String)
  | notCallable (v : Value)
  | typeMismatch (v : Value)
  | noMatchingClause
  | notAssignable (n : String)
  | arityMismatch (expected got : Nat)
  | pyTypeError
  | outOfFuel
deriving Repr

/-- Python == on the values that occur here: numbers (ints and bools
compare by numeric value), strings, and None. Distinct-type comparisons
are False. Object identity on callables and exception objects is not
modelled; no evaluated program here compares them. -/
def pyEq (a b : Value) : Bool :=
  match asNum a, asNum b with
  | some x, some y => x == y
  | _, _ =>
    match a, b with
    | .str x, .str y => x == y
    | .none, .none => true
    | _, _ => false

/-- Python str() of a value, as used by print. The source prints the repr
of function objects (with a memory address); that is abstracted to a
fixed token. str() of a ValueError is its message. -/
def pyStr : Value → String
  | .int n => toString n
  | .bool b => if b then "True" else "False"
  | .str t => t
  | .none => "None"
  | .builtin _ => "<function>"
  | .closure _ _ _ => "<function>"
  | .error m => m

/-- a + b: numbers add, strings concatenate, anything else raises
TypeError. -/
def pyAdd (a b : Value) : Except Err Value :=
  match asNum a, asNum b with
  | some x, some y => .ok (.int (x + y))
  | _, _ =>
    match a, b with
    | .str x, .str y => .ok (.str (x ++ y))
    | _, _ => .error .pyTypeError

/-- a - b: numbers only. -/
def pySub (a b : Value) : Except Err Value :=
  match asNum a, asNum b with
  | some x, some y => .ok (.int (x - y))
  | _, _ => .error .pyTypeError

/-- a * b: numbers multiply; a string times a number repeats it
(negative counts give the empty string, as in Python). -/
def pyMul (a b : Value) : Except Err Value :=
  match asNum a, asNum b with
  | some x, some y => .ok (.int (x * y))
  | _, _ =>
    match a, b with
    | .str x, _ =>
      match asNum b with
      | some y => .ok (.str (String.join (List.replicate y.toNat x)))
      | _ => .error .pyTypeError
    | _, .str y =>
      match asNum a with
      | some x => .ok (.str (String.join (List.replicate x.toNat y)))
      | _ => .error .pyTypeError
    | _, _ => .error .pyTypeError

/-- The div builtin: a // b if b != 0 else ValueError(...). The zero test
is Python ==, checked before the operands are known to be numeric, and
the zero-divisor result is a ValueError object returned as an ordinary
value, exactly as in the source. Python // on ints is floor division. -/
def pyDivOp (a b : Value) : Except Err Value :=
  if pyEq b (.int 0) then .ok (.error "Error: Division by zero")
  else
    match asNum a, asNum b with
    | some x, some y => .ok (.int (Int.fdiv x y))
    | _, _ => .error .pyTypeError

/-- The mod builtin: a % b if b != 0 else ValueError(...), same shape as
div. Python % on ints takes the divisor's sign (floor modulus). -/
def pyModOp (a b : Value) : Except Err Value :=
  if pyEq b (.int 0) then .ok (.error "Error: Division by zero")
  else
    match asNum a, asNum b with
    | some x, some y => .ok (.int (Int.fmod x y))
    | _, _ => .error .pyTypeError

/-- Apply a builtin lambda to evaluated arguments. A wrong argument count
for the fixed-arity lambdas is a Python TypeError. print writes its
arguments space-joined to the output and returns None. -/
def applyBuiltin (op : BuiltinOp) (args : List Value) (s : State) :
    Except Err (Value × State) :=
  match op, args with
  | .add, [a, b] => (pyAdd a b).map (fun v => (v, s))
  | .sub, [a, b] => (pySub a b).map (fun v => (v, s))
  | .mul, [a, b] => (pyMul a b).map (fun v => (v, s))
  | .div, [a, b] => (pyDivOp a b).map (fun v => (v, s))
  | .mod, [a, b] => (pyModOp a b).map (fun v => (v, s))
  | .eq, [a, b] => .ok (.bool (pyEq a b), s)
  | .zeroP, [n] => .ok (.bool (pyEq n (.int 0)), s)
  | .print, vs =>
    .ok (.none, { s with
      output := s.output ++ [String.intercalate " " (vs.map pyStr)] })
  | _, _ => .error .pyTypeError

/-- The global environment: x, v, i are Variable cells at addresses
0, 1, 2 of the initial cell heap; the rest are plain values. -/
def globalFrame : Frame :=
  [("x", .cell 0), ("v", .cell 1), ("i", .cell 2),
   ("add", .val (.builtin .add)), ("sub", .val (.builtin .sub)),
   ("mul", .val (.builtin .mul)), ("div", .val (.builtin .div)),
   ("mod", .val (.builtin .mod)), ("eq", .val (.builtin .eq)),
   ("true", .val (.bool true)), ("false", .val (.bool false)),
   ("zero?", .val (.builtin .zeroP)), ("print", .val (.builtin .print))]

/-- Process start: the global frame at handle 0, its three Variable
cells holding 10, 5, 1, and empty output. -/
def initState : State :=
  ⟨[globalFrame], [.int 10, .int 5, .int 1], []⟩

/-- Evaluate a list of argument expressions left to right, threading the
state (the list comprehension in the Application branch). -/
def evalArgsF (ev : Expr → State → Except Err (Value × State)) :
    List Expr → State → Except Err (List Value × State)
  | [], s => .ok ([], s)
  | e :: es, s =>
    match ev e s with
    | .error err => .error err
    | .ok (v, s1) =>
      match evalArgsF ev es s1 with
      | .error err => .error err
      | .ok (vs, s2) => .ok (v :: vs, s2)

/-- Evaluate a sequence of expressions in order, returning the last
result; acc is the running block_result, initially None, which is what an
empty sequence returns (the Block and lambda-body loops). -/
def evalSeqF (ev : Expr → State → Except Err (Value × State)) :
    List Expr → Value → State → Except Err (Value × State)
  | [], acc, s => .ok (acc, s)
  | e :: es, _, s =>
    match ev e s with
    | .error err => .error err
    | .ok (v, s1) => evalSeqF ev es v s1

/-- Evaluate Cond clauses in order: each test must evaluate to a bool,
else TypeError; the first true test's consequent is evaluated and
returned; exhaustion raises the no-matching-clause error. -/
def evalCondF (ev : Expr → State → Except Err (Value × State)) :
    List (Expr × Expr) → State → Except Err (Value × State)
  | [], _ => .error .noMatchingClause
  | (t, c) :: rest, s =>
    match ev t s with
    | .error err => .error err
    | .ok (.bool b, s1) => if b then ev c s1 else evalCondF ev rest s1
    | .ok (tv, _) => .error (.typeMismatch tv)

/-- The parameter-binding loop of evaluate_lambda: for each parameter in
order, allocate a fresh Variable cell holding the matching argument and
update the (already copied) frame. Called with equal-length lists. -/
def bindAll : Frame → List String → List Value → State → Frame × State
  | f, [], _, s => (f, s)
  | f, _, [], s => (f, s)
  | f, p :: ps, a :: rest, s =>
    let (ad, s1) := allocCell s a
    bindAll (setKey f p (.cell ad)) ps rest s1

/-- Invoke an applied value: a builtin lambda runs applyBuiltin; a
closure checks arity (evaluate_lambda), copies its captured frame, binds
parameters to fresh cells, and runs the body in sequence starting from
None; anything else is not callable. -/
def applyValueF (ev : Expr → Nat → State → Except Err (Value × State))
    (fv : Value) (args : List Value) (s : State) :
    Except Err (Value × State) :=
  match fv with
  | .builtin op => applyBuiltin op args s
  | .closure params body ch =>
    if params.length = args.length then
      let (f, s1) := bindAll (getFrame s ch) params args s
      let (h2, s2) := pushFrame s1 f
      evalSeqF (fun e s' => ev e h2 s') body .none s2
  else .error (.arityMismatch params.length args.length)
  | v => .error (.notCallable v)

/-- evaluate_expression: fuel-bounded dispatch on the node kind. Each
recursive call one level down uses one unit of fuel; the helpers above
thread the current level's evaluator. The branches are the source's in
order: literals, identifier lookup, application (function position first,
then arguments left to right, then the callable check), conditional,
block (one shared copied frame), let (value in the outer frame, body in
an extended copy with a fresh cell), assignment (right-hand side first,
then the cell check), and lambda (captures a copy of the current frame).
-/
def evaluate : Nat → Expr → Nat → State → Except Err (Value × State)
  | 0, _, _, _ => .error .outOfFuel
  | fuel + 1, e, h, s =>
    match e with
    | .int n => .ok (.int n, s)
    | .bool b => .ok (.bool b, s)
    | .str t => .ok (.str t, s)
    | .ident n =>
      match frameLookup (getFrame s h) n with
      | some (.cell a) => .ok (getCell s a, s)
      | some (.val v) => .ok (v, s)
      | Option.none => .error (.unboundIdentifier n)
    | .app fe argEs =>
      match evaluate fuel fe h s with
      | .error err => .error err
      | .ok (fv, s1) =>
        match evalArgsF (fun e' s' => evaluate fuel e' h s') argEs s1 with
        | .error err => .error err
        | .ok (avs, s2) =>
          applyValueF (fun e' h' s' => evaluate fuel e' h' s') fv avs s2
    | .cond clauses =>
      evalCondF (fun e' s' => evaluate fuel e' h s') clauses s
    | .block es =>
      let (h2, s1) := pushFrame s (getFrame s h)
      evalSeqF (fun e' s' => evaluate fuel e' h2 s') es .none s1
    | .letE n ve body =>
      match evaluate fuel ve h s with
      | .error err => .error err
      | .ok (v, s1) =>
        let (a, s2) := allocCell s1 v
        let (h2, s3) := pushFrame s2 (setKey (getFrame s2 h) n (.cell a))
        evaluate fuel body h2 s3
    | .assign n ve =>
      match evaluate fuel ve h s with
      | .error err => .error err
      | .ok (v, s1) =>
        match frameLookup (getFrame s1 h) n with
        | some (.cell a) => .ok (v, setCell s1 a v)
        | some (.val _) => .error (.notAssignable n)
        | Option.none => .error (.unboundIdentifier n)
    | .lambda params body =>
      let (h2, s1) := pushFrame s (getFrame s h)
      .ok (.closure params body h2, s1)

/-- Top-level entry (read_input): evaluate a tree against the global
environment and keep the resulting value. -/
def runEval (fuel : Nat) (e : Expr) : Except Err Value :=
  match evaluate fuel e 0 initState with
  | .error err => .error err
  | .ok (v, _) => .ok v


/-- Heap effect of one evaluation step as seen by the caller: the frame
heap is only ever appended to (no existing frame is modified), and the
cell heap never shrinks (existing cells may be mutated, new ones added).
-/
def Pres (s s' : State) : Prop :=
  (∃ t, s'.frames = s.frames ++ t) ∧ s.cells.length ≤ s'.cells.length

theorem pres_refl (s : State) : Pres s s :=
  ⟨⟨[], (List.append_nil _).symm⟩, Nat.le_refl _⟩

theorem pres_trans {s1 s2 s3 : State} (h1 : Pres s1 s2) (h2 : Pres s2 s3) :
    Pres s1 s3 := by
  obtain ⟨⟨t1, ht1⟩, hc1⟩ := h1
  obtain ⟨⟨t2, ht2⟩, hc2⟩ := h2
  exact ⟨⟨t1 ++ t2, by rw [ht2, ht1, List.append_assoc]⟩, Nat.le_trans hc1 hc2⟩

theorem pres_pushFrame (s : State) (f : Frame) : Pres s (pushFrame s f).2 :=
  ⟨⟨[f], rfl⟩, Nat.le_refl _⟩

theorem pres_allocCell (s : State) (v : Value) : Pres s (allocCell s v).2 :=
  ⟨⟨[], (List.append_nil _).symm⟩, by simp [allocCell]⟩

theorem pres_setCell (s : State) (a : Nat) (v : Value) :
    Pres s (setCell s a v) :=
  ⟨⟨[], (List.append_nil _).symm⟩, by simp [setCell]⟩

theorem pres_applyBuiltin {op : BuiltinOp} {args : List Value} {s : State}
    {v : Value} {s' : State} (h : applyBuiltin op args s = .ok (v, s')) :
    Pres s s' := by
  unfold applyBuiltin at h
  split at h
  case _ a b =>
    cases hx : pyAdd a b <;> rw [hx] at h <;> simp [Except.map] at h
    rw [← h.2]; exact pres_refl s
  case _ a b =>
    cases hx : pySub a b <;> rw [hx] at h <;> simp [Except.map] at h
    rw [← h.2]; exact pres_refl s
  case _ a b =>
    cases hx : pyMul a b <;> rw [hx] at h <;> simp [Except.map] at h
    rw [← h.2]; exact pres_refl s
  case _ a b =>
    cases hx : pyDivOp a b <;> rw [hx] at h <;> simp [Except.map] at h
    rw [← h.2]; exact pres_refl s
  case _ a b =>
    cases hx : pyModOp a b <;> rw [hx] at h <;> simp [Except.map] at h
    rw [← h.2]; exact pres_refl s
  case _ a b =>
    simp at h; rw [← h.2]; exact pres_refl s
  case _ n =>
    simp at h; rw [← h.2]; exact pres_refl s
  case _ vs =>
    simp at h
    rw [← h.2]
    exact ⟨⟨[], (List.append_nil _).symm⟩, Nat.le_refl _⟩
  case _ =>
    simp at h

theorem pres_evalArgsF {ev : Expr → State → Except Err (Value × State)}
    (H : ∀ e s v s', ev e s = .ok (v, s') → Pres s s') :
    ∀ (es : List Expr) (s : State) (vs : List Value) (s' : State),
      evalArgsF ev es s = .ok (vs, s') → Pres s s' := by
  intro es
  induction es with
  | nil =>
    intro s vs s' h
    simp [evalArgsF] at h
    rw [← h.2]; exact pres_refl s
  | cons e es ih =>
    intro s vs s' h
    rw [evalArgsF] at h
    cases he : ev e s with
    | error err => rw [he] at h; exact absurd h (by simp)
    | ok p =>
      obtain ⟨v, s1⟩ := p
      rw [he] at h
      dsimp only at h
      cases hr : evalArgsF ev es s1 with
      | error err => rw [hr] at h; exact absurd h (by simp)
      | ok q =>
        obtain ⟨vs2, s2⟩ := q
        rw [hr] at h
        dsimp only at h
        simp at h
        rw [← h.2]
        exact pres_trans (H e s v s1 he) (ih s1 vs2 s2 hr)

theorem pres_evalSeqF {ev : Expr → State → Except Err (Value × State)}
    (H : ∀ e s v s', ev e s = .ok (v, s') → Pres s s') :
    ∀ (es : List Expr) (acc : Value) (s : State) (v : Value) (s' : State),
      evalSeqF ev es acc s = .ok (v, s') → Pres s s' := by
  intro es
  induction es with
  | nil =>
    intro acc s v s' h
    simp [evalSeqF] at h
    rw [← h.2]; exact pres_refl s
  | cons e es ih =>
    intro acc s v s' h
    rw [evalSeqF] at h
    cases he : ev e s with
    | error err => rw [he] at h; exact absurd h (by simp)
    | ok p =>
      obtain ⟨v1, s1⟩ := p
      rw [he] at h
      dsimp only at h
      exact pres_trans (H e s v1 s1 he) (ih v1 s1 v s' h)

theorem pres_evalCondF {ev : Expr → State → Except Err (Value × State)}
    (H : ∀ e s v s', ev e s = .ok (v, s') → Pres s s') :
    ∀ (cls : List (Expr × Expr)) (s : State) (v : Value) (s' : State),
      evalCondF ev cls s = .ok (v, s') → Pres s s' := by
  intro cls
  induction cls with
  | nil => intro s v s' h; simp [evalCondF] at h
  | cons tc rest ih =>
    obtain ⟨t, c⟩ := tc
    intro s v s' h
    rw [evalCondF] at h
    cases he : ev t s with
    | error err => rw [he] at h; exact absurd h (by simp)
    | ok p =>
      obtain ⟨tv, s1⟩ := p
      rw [he] at h
      cases tv with
      | bool b =>
        cases b with
        | true =>
          simp at h
          exact pres_trans (H t s (.bool true) s1 he) (H c s1 v s' h)
        | false =>
          simp at h
          exact pres_trans (H t s (.bool false) s1 he) (ih s1 v s' h)
      | int n => exact absurd h (by simp)
      | str t' => exact absurd h (by simp)
      | none => exact absurd h (by simp)
      | builtin op => exact absurd h (by simp)
      | closure pa bo c' => exact absurd h (by simp)
      | error m => exact absurd h (by simp)

theorem pres_bindAll :
    ∀ (ps : List String) (args : List Value) (f : Frame) (s : State),
      Pres s (bindAll f ps args s).2 := by
  intro ps
  induction ps with
  | nil => intro args f s; cases args <;> exact pres_refl s
  | cons p ps ih =>
    intro args f s
    cases args with
    | nil => exact pres_refl s
    | cons a rest =>
      exact pres_trans (pres_allocCell s a) (ih rest _ _)

theorem pres_applyValueF {ev : Expr → Nat → State → Except Err (Value × State)}
    (H : ∀ e hh s v s', ev e hh s = .ok (v, s') → Pres s s') :
    ∀ (fv : Value) (args : List Value) (s : State) (v : Value) (s' : State),
      applyValueF ev fv args s = .ok (v, s') → Pres s s' := by
  intro fv args s v s' h
  cases fv with
  | builtin op => exact pres_applyBuiltin h
  | closure params body ch =>
    rw [applyValueF] at h
    by_cases hl : params.length = args.length
    · rw [if_pos hl] at h
      cases hb : bindAll (getFrame s ch) params args s with
      | mk f1 s1 =>
        rw [hb] at h
        dsimp only at h
        have hps : Pres s s1 := by
          have hp := pres_bindAll params args (getFrame s ch) s
          rw [hb] at hp
          exact hp
        refine pres_trans hps (pres_trans (pres_pushFrame s1 f1) ?_)
        exact pres_evalSeqF (fun e s0 v0 s0' hh => H e _ s0 v0 s0' hh)
          body .none _ v s' h
    · rw [if_neg hl] at h; exact absurd h (by simp)
  | int n => exact absurd h (by simp [applyValueF])
  | bool b => exact absurd h (by simp [applyValueF])
  | str t => exact absurd h (by simp [applyValueF])
  | none => exact absurd h (by simp [applyValueF])
  | error m => exact absurd h (by simp [applyValueF])

theorem pres_evaluate :
    ∀ (fuel : Nat) (e : Expr) (h : Nat) (s : State) (v : Value) (s' : State),
      evaluate fuel e h s = .ok (v, s') → Pres s s' := by
  intro fuel
  induction fuel with
  | zero => intro e h s v s' hE; simp [evaluate] at hE
  | succ fuel ih =>
    intro e h s v s' hE
    cases e with
    | int n => simp [evaluate] at hE; rw [← hE.2]; exact pres_refl s
    | bool b => simp [evaluate] at hE; rw [← hE.2]; exact pres_refl s
    | str t => simp [evaluate] at hE; rw [← hE.2]; exact pres_refl s
    | ident n =>
      rw [evaluate] at hE
      cases hl : frameLookup (getFrame s h) n with
      | none => rw [hl] at hE; exact absurd hE (by simp)
      | some b =>
        rw [hl] at hE
        cases b with
        | cell a => simp at hE; rw [← hE.2]; exact pres_refl s
        | val v0 => simp at hE; rw [← hE.2]; exact pres_refl s
    | app fe argEs =>
      rw [evaluate] at hE
      cases hf : evaluate fuel fe h s with
      | error err => rw [hf] at hE; exact absurd hE (by simp)
      | ok p =>
        obtain ⟨fv, s1⟩ := p
        rw [hf] at hE
        dsimp only at hE
        cases ha : evalArgsF (fun e' s' => evaluate fuel e' h s') argEs s1 with
        | error err => rw [ha] at hE; exact absurd hE (by simp)
        | ok q =>
          obtain ⟨avs, s2⟩ := q
          rw [ha] at hE
          dsimp only at hE
          have hp1 : Pres s s1 := ih fe h s fv s1 hf
          have hp2 : Pres s1 s2 :=
            pres_evalArgsF (fun e0 s0 v0 s0' hh => ih e0 h s0 v0 s0' hh)
              argEs s1 avs s2 ha
          have hp3 : Pres s2 s' :=
            pres_applyValueF (fun e0 hh s0 v0 s0' h2 => ih e0 hh s0 v0 s0' h2)
              fv avs s2 v s' hE
          exact pres_trans hp1 (pres_trans hp2 hp3)
    | cond clauses =>
      rw [evaluate] at hE
      exact pres_evalCondF (fun e0 s0 v0 s0' hh => ih e0 h s0 v0 s0' hh)
        clauses s v s' hE
    | block es =>
      rw [evaluate] at hE
      dsimp only at hE
      refine pres_trans (pres_pushFrame s (getFrame s h)) ?_
      exact pres_evalSeqF (fun e0 s0 v0 s0' hh => ih e0 _ s0 v0 s0' hh)
        es .none _ v s' hE
    | letE n ve body =>
      rw [evaluate] at hE
      cases hv : evaluate fuel ve h s with
      | error err => rw [hv] at hE; exact absurd hE (by simp)
      | ok p =>
        obtain ⟨v1, s1⟩ := p
        rw [hv] at hE
        dsimp only at hE
        have hp1 : Pres s s1 := ih ve h s v1 s1 hv
        have hp2 : Pres s1 (allocCell s1 v1).2 := pres_allocCell s1 v1
        have hp4 := ih body _ _ v s' hE
        exact pres_trans hp1 (pres_trans hp2 (pres_trans
          (pres_pushFrame (allocCell s1 v1).2
            (setKey (getFrame (allocCell s1 v1).2 h) n
              (Binding.cell (allocCell s1 v1).1))) hp4))
    | assign n ve =>
      rw [evaluate] at hE
      cases hv : evaluate fuel ve h s with
      | error err => rw [hv] at hE; exact absurd hE (by simp)
      | ok p =>
        obtain ⟨v1, s1⟩ := p
        rw [hv] at hE
        dsimp only at hE
        cases hl : frameLookup (getFrame s1 h) n with
        | none => rw [hl] at hE; exact absurd hE (by simp)
        | some b =>
          rw [hl] at hE
          cases b with
          | cell a =>
            simp at hE
            rw [← hE.2]
            exact pres_trans (ih ve h s v1 s1 hv) (pres_setCell s1 a v1)
          | val v0 => exact absurd hE (by simp)
    | lambda params body =>
      rw [evaluate] at hE
      dsimp only at hE
      simp at hE
      rw [← hE.2]
      exact pres_pushFrame s (getFrame s h)



/-! ## Evaluation equations and small helpers used by the claim theorems -/

/-- Unfolding equation for evaluating an Assignment whose right-hand side
is an integer literal: the literal evaluates to itself without touching
the state, then the name is looked up in the current frame. -/
theorem evaluate_assign_int (fuel : Nat) (s : State) (h : Nat) (n : String)
    (k : Int) :
    evaluate (fuel+2) (.assign n (.int k)) h s =
      (match frameLookup (getFrame s h) n with
       | some (.cell a) => Except.ok (.int k, setCell s a (.int k))
       | some (.val _) => Except.error (.notAssignable n)
       | Option.none => Except.error (.unboundIdentifier n)) := rfl

/-- Unfolding equation for evaluating an Identifier: a cell binding reads
the cell, a plain binding returns the value, an absent name fails. -/
theorem evaluate_ident_eq (fuel : Nat) (s : State) (h : Nat) (n : String) :
    evaluate (fuel+1) (.ident n) h s =
      (match frameLookup (getFrame s h) n with
       | some (.cell a) => Except.ok (getCell s a, s)
       | some (.val v) => Except.ok (v, s)
       | Option.none => Except.error (.unboundIdentifier n)) := rfl

/-- Reading back a just-written list position. -/
theorem list_getD_set_self {α : Type} (l : List α) (a : Nat) (v d : α)
    (h : a < l.length) : (l.set a v).getD a d = v := by
  simp [List.getD, List.getElem?_set_self, h]

/-- Reading back a just-mutated cell. -/
theorem getCell_setCell_self (s : State) (a : Nat) (v : Value)
    (h : a < s.cells.length) : getCell (setCell s a v) a = v :=
  list_getD_set_self s.cells a v .none h

/-- Supporting fact for the div builtin on a nonzero divisor: the result
is floor division, as Python // computes it. -/
theorem div_nonzero_floor (fuel : Nat) (a b : Int) (h : b ≠ 0) :
    evaluate (fuel+2) (.app (.ident "div") [.int a, .int b]) 0 initState
      = .ok (.int (Int.fdiv a b), initState) := by
  have step : evaluate (fuel+2) (.app (.ident "div") [.int a, .int b]) 0 initState
      = (pyDivOp (.int a) (.int b)).map (fun v => (v, initState)) := rfl
  have hb : pyEq (.int b) (.int 0) = false := by simp [pyEq, asNum, h]
  rw [step]
  simp [pyDivOp, hb, asNum, Except.map]

/-- Supporting fact for the mod builtin on a nonzero divisor: the result
is the floor modulus, as Python % computes it. -/
theorem mod_nonzero_floor (fuel : Nat) (a b : Int) (h : b ≠ 0) :
    evaluate (fuel+2) (.app (.ident "mod") [.int a, .int b]) 0 initState
      = .ok (.int (Int.fmod a b), initState) := by
  have step : evaluate (fuel+2) (.app (.ident "mod") [.int a, .int b]) 0 initState
      = (pyModOp (.int a) (.int b)).map (fun v => (v, initState)) := rfl
  have hb : pyEq (.int b) (.int 0) = false := by simp [pyEq, asNum, h]
  rw [step]
  simp [pyModOp, hb, asNum, Except.map]

/-! ## Claim theorems -/

/-- C1: applying div (likewise mod) to a zero divisor does NOT fail; the
source returns the ValueError object itself as an ordinary successful
value. This documents the divergence between the code and the claim that
division by zero must fail with DivisionByZero; the nonzero-divisor half
of the claim is div_nonzero_floor above. -/
theorem div_mod_by_zero_return_error_value :
    runEval 5 (.app (.ident "div") [.int 1, .int 0])
      = .ok (.error "Error: Division by zero")
    ∧ runEval 5 (.app (.ident "mod") [.int 1, .int 0])
      = .ok (.error "Error: Division by zero") :=
  ⟨rfl, rfl⟩

/-- C2: two frames that hold the same cell address under a name (frames
derived from a common ancestor, neither having rebound the name) observe
each other's assignments: assigning in the first frame mutates the cell
and an identifier read in the second frame returns the assigned value; in
particular the concrete program that binds y, assigns to it inside a
nested Block and reads it in the outer scope yields the assigned 42. -/
theorem shared_cell_assignment_visible :
    (∀ (fuel : Nat) (s : State) (h1 h2 : Nat) (n : String) (a : Nat) (k : Int),
      frameLookup (getFrame s h1) n = some (.cell a) →
      frameLookup (getFrame s h2) n = some (.cell a) →
      a < s.cells.length →
      evaluate (fuel+2) (.assign n (.int k)) h1 s
        = .ok (.int k, setCell s a (.int k))
      ∧ evaluate (fuel+1) (.ident n) h2 (setCell s a (.int k))
        = .ok (.int k, setCell s a (.int k)))
    ∧ runEval 20 (.letE "y" (.int 1)
        (.block [.block [.assign "y" (.int 42)], .ident "y"])) = .ok (.int 42) := by
  refine ⟨?_, rfl⟩
  intro fuel s h1 h2 n a k hl1 hl2 ha
  constructor
  · rw [evaluate_assign_int, hl1]
  · have hfr : getFrame (setCell s a (.int k)) h2 = getFrame s h2 := rfl
    rw [evaluate_ident_eq, hfr, hl2]
    show Except.ok (getCell (setCell s a (.int k)) a, setCell s a (.int k))
      = Except.ok (.int k, setCell s a (.int k))
    rw [getCell_setCell_self s a (.int k) ha]

theorem shared_cell_assignment_visible_witness :
    evaluate 2 (.assign "x" (.int 7)) 0
        ⟨[globalFrame, globalFrame], [.int 10, .int 5, .int 1], []⟩
      = .ok (.int 7, setCell ⟨[globalFrame, globalFrame],
          [.int 10, .int 5, .int 1], []⟩ 0 (.int 7))
    ∧ evaluate 1 (.ident "x") 1 (setCell ⟨[globalFrame, globalFrame],
          [.int 10, .int 5, .int 1], []⟩ 0 (.int 7))
      = .ok (.int 7, setCell ⟨[globalFrame, globalFrame],
          [.int 10, .int 5, .int 1], []⟩ 0 (.int 7)) :=
  shared_cell_assignment_visible.1 0
    ⟨[globalFrame, globalFrame], [.int 10, .int 5, .int 1], []⟩
    0 1 "x" 0 7 rfl rfl (by decide)

/-- C3: a Lambda captures a shallow copy of the creation-site frame (the
general equation shows the closure holds a fresh copy of the current
frame); mutating a captured cell by assignment before the call is seen by
the closure (99); Let-rebinding the name in another scope after capture
is not (still 5); and a Let shadowing inside the closure body leaves the
outer binding unchanged (still 5). -/
theorem closure_capture_snapshot :
    (∀ (fuel h : Nat) (s : State) (params : List String) (body : List Expr),
      evaluate (fuel+1) (.lambda params body) h s
        = .ok (.closure params body s.frames.length,
            { s with frames := s.frames ++ [getFrame s h] }))
    ∧ runEval 20 (.letE "f" (.lambda [] [.ident "v"])
        (.block [.assign "v" (.int 99), .app (.ident "f") []])) = .ok (.int 99)
    ∧ runEval 20 (.letE "f" (.lambda [] [.ident "v"])
        (.letE "v" (.int 100) (.app (.ident "f") []))) = .ok (.int 5)
    ∧ runEval 20 (.letE "f" (.lambda [] [.letE "v" (.int 7) (.ident "v")])
        (.block [.app (.ident "f") [], .ident "v"])) = .ok (.int 5) :=
  ⟨fun _ _ _ _ _ => rfl, rfl, rfl, rfl⟩

/-- C4: the Let value expression is evaluated in the outer frame, so a
use of the bound name inside it fails with the unbound-identifier error
whenever the name is not already bound outside; and the body is evaluated
in an extended frame holding the value (the concrete Let binds y to 5 and
reads it back). -/
theorem let_value_scoping :
    (∀ (fuel : Nat) (s : State) (h : Nat) (x : String) (body : Expr),
      frameLookup (getFrame s h) "add" = some (.val (.builtin .add)) →
      frameLookup (getFrame s h) x = Option.none →
      evaluate (fuel+3)
          (.letE x (.app (.ident "add") [.ident x, .int 1]) body) h s
        = .error (.unboundIdentifier x))
    ∧ runEval 20 (.letE "y" (.int 5) (.ident "y")) = .ok (.int 5) := by
  refine ⟨?_, rfl⟩
  intro fuel s h x body hadd hx
  simp only [evaluate, evalArgsF, hadd, hx]

theorem let_value_scoping_witness :
    evaluate 3 (.letE "q" (.app (.ident "add") [.ident "q", .int 1]) (.int 0))
        0 initState
      = .error (.unboundIdentifier "q") :=
  let_value_scoping.1 0 initState 0 "q" (.int 0) rfl rfl

/-- C5: Cond takes the first true clause (2); exhausting all-false
clauses raises the no-matching-clause error; an integer 0 test raises the
type-mismatch error (Python 0 is not a bool); and a later clause after a
true test is never evaluated — its assignment does not run, the final
state is untouched. -/
theorem cond_evaluation :
    runEval 20 (.cond [(.ident "false", .int 1), (.ident "true", .int 2)])
      = .ok (.int 2)
    ∧ runEval 20 (.cond [(.ident "false", .int 1), (.ident "false", .int 2)])
      = .error .noMatchingClause
    ∧ runEval 20 (.cond [(.int 0, .int 1)]) = .error (.typeMismatch (.int 0))
    ∧ evaluate 5 (.cond [(.ident "true", .int 1), (.assign "x" (.int 99), .int 2)])
        0 initState = .ok (.int 1, initState) :=
  ⟨rfl, rfl, rfl, rfl⟩

/-- C6: Assignment with an evaluated right-hand side fails with the
unbound-identifier error when the name is absent, fails with the
not-assignable error when the name is bound to a plain value (builtin,
closure or constant) rather than a Variable cell, and otherwise mutates
the existing cell in place and returns the assigned value. -/
theorem assignment_behavior (fuel : Nat) (s : State) (h : Nat) (n : String)
    (k : Int) :
    (frameLookup (getFrame s h) n = Option.none →
      evaluate (fuel+2) (.assign n (.int k)) h s
        = .error (.unboundIdentifier n))
    ∧ (∀ bv, frameLookup (getFrame s h) n = some (.val bv) →
      evaluate (fuel+2) (.assign n (.int k)) h s = .error (.notAssignable n))
    ∧ (∀ a, frameLookup (getFrame s h) n = some (.cell a) →
        a < s.cells.length →
      evaluate (fuel+2) (.assign n (.int k)) h s
        = .ok (.int k, setCell s a (.int k))
      ∧ getCell (setCell s a (.int k)) a = .int k) := by
  refine ⟨fun hl => ?_, fun bv hl => ?_, fun a hl ha => ⟨?_, ?_⟩⟩
  · rw [evaluate_assign_int, hl]
  · rw [evaluate_assign_int, hl]
  · rw [evaluate_assign_int, hl]
  · exact getCell_setCell_self s a (.int k) ha

theorem assignment_behavior_witness :
    evaluate 2 (.assign "q" (.int 3)) 0 initState
      = .error (.unboundIdentifier "q")
    ∧ evaluate 2 (.assign "add" (.int 3)) 0 initState
      = .error (.notAssignable "add")
    ∧ (evaluate 2 (.assign "x" (.int 3)) 0 initState
        = .ok (.int 3, setCell initState 0 (.int 3))
      ∧ getCell (setCell initState 0 (.int 3)) 0 = .int 3) :=
  ⟨(assignment_behavior 0 initState 0 "q" 3).1 rfl,
   (assignment_behavior 0 initState 0 "add" 3).2.1 (.builtin .add) rfl,
   (assignment_behavior 0 initState 0 "x" 3).2.2 0 rfl (by decide)⟩

/-- C7: applying a non-callable value fails with the not-callable error
(general); add 2 3 evaluates to 5; applying the integer 3 fails with the
not-callable error only after its arguments were evaluated; arguments are
evaluated left to right in the current frame (the assignment in the first
argument is seen by the second, giving 2); and the function position is
evaluated before the arguments (the block assigning x = 7 runs first, so
the argument read of x yields 7). -/
theorem application_evaluation :
    (∀ (ev : Expr → Nat → State → Except Err (Value × State)) (v : Value)
        (args : List Value) (s : State), pyCallable v = false →
      applyValueF ev v args s = .error (.notCallable v))
    ∧ runEval 20 (.app (.ident "add") [.int 2, .int 3]) = .ok (.int 5)
    ∧ runEval 20 (.app (.int 3) [.int 1]) = .error (.notCallable (.int 3))
    ∧ runEval 20 (.app (.ident "add") [.assign "x" (.int 1), .ident "x"])
      = .ok (.int 2)
    ∧ runEval 20 (.app (.block [.assign "x" (.int 7), .ident "add"])
        [.ident "x", .int 0]) = .ok (.int 7) := by
  refine ⟨?_, rfl, rfl, rfl, rfl⟩
  intro ev v args s hnc
  cases v <;> simp_all [pyCallable, applyValueF]

theorem application_evaluation_witness :
    applyValueF (fun e' h' s' => evaluate 0 e' h' s') (.int 0) [] initState
      = .error (.notCallable (.int 0)) :=
  application_evaluation.1 (fun e' h' s' => evaluate 0 e' h' s')
    (.int 0) [] initState rfl

/-- C8: invoking a closure with an argument count different from its
parameter count fails with the arity-mismatch error carrying both counts
(general, and concretely for a 2-parameter closure called with 1 and with
3 arguments); with matching counts the parameters are bound to fresh
cells over the captured frame and the body runs there (4 + 5 = 9). -/
theorem closure_arity :
    (∀ (ev : Expr → Nat → State → Except Err (Value × State))
        (params : List String) (body : List Expr) (ch : Nat)
        (args : List Value) (s : State), params.length ≠ args.length →
      applyValueF ev (.closure params body ch) args s
        = .error (.arityMismatch params.length args.length))
    ∧ runEval 20 (.app (.lambda ["a", "b"]
        [.app (.ident "add") [.ident "a", .ident "b"]]) [.int 1])
      = .error (.arityMismatch 2 1)
    ∧ runEval 20 (.app (.lambda ["a", "b"]
        [.app (.ident "add") [.ident "a", .ident "b"]]) [.int 1, .int 2, .int 3])
      = .error (.arityMismatch 2 3)
    ∧ runEval 20 (.app (.lambda ["a", "b"]
        [.app (.ident "add") [.ident "a", .ident "b"]]) [.int 4, .int 5])
      = .ok (.int 9) := by
  refine ⟨?_, rfl, rfl, rfl⟩
  intro ev params body ch args s hne
  simp [applyValueF, hne]

theorem closure_arity_witness :
    applyValueF (fun e' h' s' => evaluate 0 e' h' s')
        (.closure ["a"] [] 0) [] initState
      = .error (.arityMismatch 1 0) :=
  closure_arity.1 (fun e' h' s' => evaluate 0 e' h' s')
    ["a"] [] 0 [] initState (by decide)

/-- C9 counterexample: evaluating an empty Block does not fail at all; it
succeeds with the Python None sentinel (the initial block result), the
only state change being the copied frame the Block pushes. -/
theorem empty_block_returns_none_value :
    evaluate 5 (.block []) 0 initState
      = .ok (.none, ⟨[globalFrame, globalFrame],
          [.int 10, .int 5, .int 1], []⟩) := rfl

/-- C9 amended: for every fuel, frame and state, an empty Block evaluates
successfully to None in a freshly copied frame instead of being rejected
as invalid input. -/
theorem empty_block_ok (fuel : Nat) (h : Nat) (s : State) :
    evaluate (fuel+1) (.block []) h s
      = .ok (.none, { s with frames := s.frames ++ [getFrame s h] }) := rfl

/-- C10: a successful evaluation never adds, removes or rebinds a key of
any frame that existed before the call — in particular the caller's
frame — and never drops cells: frames existing before read back
unchanged, and the cell heap only grows (existing cells may have been
mutated through assignment, which changes contents, not bindings). -/
theorem evaluation_preserves_caller_frames
    (fuel : Nat) (e : Expr) (h : Nat) (s : State) (v : Value) (s' : State)
    (hE : evaluate fuel e h s = .ok (v, s')) :
    (∀ h', h' < s.frames.length → getFrame s' h' = getFrame s h')
    ∧ s.cells.length ≤ s'.cells.length := by
  obtain ⟨⟨t, ht⟩, hc⟩ := pres_evaluate fuel e h s v s' hE
  refine ⟨fun h' hlt => ?_, hc⟩
  unfold getFrame
  rw [ht]
  exact List.getD_append _ _ _ _ hlt

theorem evaluation_preserves_caller_frames_witness :
    getFrame ⟨[globalFrame, globalFrame], [.int 7, .int 5, .int 1], []⟩ 0
      = getFrame initState 0
    ∧ initState.cells.length ≤ 3 :=
  ⟨(evaluation_preserves_caller_frames 5 (.block [.assign "x" (.int 7)]) 0
      initState (.int 7)
      ⟨[globalFrame, globalFrame], [.int 7, .int 5, .int 1], []⟩ rfl).1 0
      (by decide),
   (evaluation_preserves_caller_frames 5 (.block [.assign "x" (.int 7)]) 0
      initState (.int 7)
      ⟨[globalFrame, globalFrame], [.int 7, .int 5, .int 1], []⟩ rfl).2⟩


end Interp
